import Mathlib

/-!
Verification of the bookdown cross-reference index subsystem
(`src/cpp/session/modules/rmarkdown/SessionBookdownXRefs.cpp`).

We shallowly embed the subsystem's pure core: raw-entry parsing, the
text-reference (indirect entry) resolution, the unsaved-document overlay,
the project-scope query merge, the file-change dispatch policy, and the
RPC handler `xrefIndexForFile`.  External effects (pandoc invocation, the
source database, the R enumeration of source files, filesystem state) are
passed in as explicit oracle parameters, so every definition is executable.
-/

namespace BookdownXRefs

set_option autoImplicit false

/-! ## Character and string utilities

The C++ code works over `std::string` with `find_first_of`,
`boost::algorithm::split` and a `boost::regex`.  We model strings through
their character lists. -/

/-- Whitespace class of the regex escape used in `textRefRe` (`\s`). -/
def isWs (c : Char) : Bool :=
  c = ' ' || c = '\t' || c = '\n' || c = '\r' || c = '\x0b' || c = '\x0c'

/-- Split at the first occurrence of `c` (models `std::string::find_first_of`):
`some (before, after)` when `c` occurs, `none` otherwise. -/
def splitOnFirst (c : Char) : List Char → Option (List Char × List Char)
  | [] => none
  | x :: xs =>
    if x = c then some ([], xs)
    else (splitOnFirst c xs).map (fun p => (x :: p.1, p.2))

/-- Split on every occurrence of `c` (models `boost::algorithm::split` with
`is_any_of` on a single character); always returns a non-empty list, and the
empty input yields `[[]]`, as boost does. -/
def splitOnChar (c : Char) : List Char → List (List Char)
  | [] => [[]]
  | x :: xs =>
    match splitOnChar c xs with
    | [] => [[]]
    | h :: t => if x = c then [] :: h :: t else (x :: h) :: t

/-- All-occurrence split lifted to `String`. -/
def splitAllOn (c : Char) (s : String) : List String :=
  (splitOnChar c s.data).map (fun l => ⟨l⟩)

/-- Filename component of a path (models `FilePath::getFilename`): the part
after the last `/`. -/
def getFilename (p : String) : String :=
  ⟨(splitOnChar '/' p.data).getLastD p.data⟩

/-! ## Data model -/

/-- Result of an external process invocation
(`core::system::ProcessResult`). -/
structure ProcessResult where
  exitStatus : Int
  stdOut : String
  stdErr : String
  deriving DecidableEq

/-- `XRefFileIndex`: the ordered raw entries for one document, plus the
document's book-relative path. -/
structure XRefFileIndex where
  file : String
  entries : List String
  deriving DecidableEq

/-- `XRefIndexEntry`: one (document, raw entry) pair of a query. -/
structure XRefIndexEntry where
  file : String
  entry : String
  deriving DecidableEq

/-- JSON values, as far as this module produces them
(`core::json::Value`); objects keep field insertion order. -/
inductive Json where
  | str (s : String) : Json
  | arr (elements : List Json) : Json
  | obj (fields : List (String × Json)) : Json

/-- Look up a string field of a JSON object. -/
def strField (j : Json) (key : String) : Option String :=
  match j with
  | Json.obj fields =>
    match fields.lookup key with
    | some (Json.str s) => some s
    | _ => none
  | _ => none

/-! ## External Renderer Adapter (`indexForDoc`)

`indexForDoc` shells out to pandoc with the `xref.lua` filter.  The pandoc
invocation is modelled by an oracle `pandoc : String → Option ProcessResult`
mapping document contents to the process result (`none` models a
process-invocation `Error`).  Both failure branches only log; the function
always returns an index and never propagates an error. -/

/-- `indexForDoc(file, contents)`: on invocation error or non-zero exit the
entries stay empty (the failure is only logged); on success the entries are
stdout split on newlines. -/
def indexForDoc (pandoc : String → Option ProcessResult)
    (file contents : String) : XRefFileIndex :=
  match pandoc contents with
  | none => { file := file, entries := [] }
  | some r =>
    if r.exitStatus ≠ 0 then { file := file, entries := [] }
    else { file := file, entries := splitAllOn '\n' r.stdOut }

/-! ## Raw entry parsing -/

/-- `writeEntryId(id)`: split the id token on its first `:` into
`(type, id)`; with no colon, the type is empty and the id is the whole
token.  (The C++ writes the two JSON fields; we return them as a pair.) -/
def writeEntryId (idTok : List Char) : String × String :=
  match splitOnFirst ':' idTok with
  | some (ty, rest) => (⟨ty⟩, ⟨rest⟩)
  | none => ("", ⟨idTok⟩)

/-- Helper for `textRefMatch`: find the rightmost `)` that is followed by at
least one whitespace character, returning the characters before it and the
characters after it.  This realizes the greedy match of `\(.*\)` followed by
`\s+` in the anchored regex `^(\(.*\))\s+(.*)$`. -/
def lastCloseSplit : List Char → Option (List Char × List Char)
  | [] => none
  | c :: rest =>
    match lastCloseSplit rest with
    | some (pre, post) => some (c :: pre, post)
    | none =>
      match rest with
      | [] => none
      | r :: _ => if c = ')' && isWs r then some ([], rest) else none

/-- Match of `textRefRe` = `^(\(.*\))\s+(.*)$` against an entry:
`some (key, value)` with the parenthesized key (group 1) and the value
(group 2, after the greedily consumed whitespace run). -/
def textRefMatch (s : List Char) : Option (String × String) :=
  match s with
  | [] => none
  | c :: rest =>
    if c = '(' then
      match lastCloseSplit rest with
      | some (pre, post) => some (⟨'(' :: (pre ++ [')'])⟩, ⟨post.dropWhile isWs⟩)
      | none => none
    else none

/-! ## Transform to structured records (`indexEntriesToXRefs`)

Phase 1 of the C++ loops over the entries, assigning matches of `textRefRe`
into a `std::map<std::string, std::string>` (later assignments overwrite)
and collecting the non-matching entries in order.  We model the map as a
total function defaulting to `""`, which is exactly the observable behaviour
of `std::map<std::string,std::string>::operator[]` (a missing key reads as
the empty string, and the phase-2 lookup substitutes only non-empty
values). -/

/-- Phase 1 of `indexEntriesToXRefs`, processing entries left to right. -/
def partitionTextRefsAux (textRefs : String → String)
    (normalEntries : List XRefIndexEntry) :
    List XRefIndexEntry → (String → String) × List XRefIndexEntry
  | [] => (textRefs, normalEntries)
  | e :: rest =>
    match textRefMatch e.entry.data with
    | some (k, v) =>
      partitionTextRefsAux (fun key => if key = k then v else textRefs key)
        normalEntries rest
    | none => partitionTextRefsAux textRefs (normalEntries ++ [e]) rest

/-- Split the raw entries into the text-reference map and the normal
entries. -/
def partitionTextRefs (entries : List XRefIndexEntry) :
    (String → String) × List XRefIndexEntry :=
  partitionTextRefsAux (fun _ => "") [] entries

/-- Phase-2 loop body of `indexEntriesToXRefs` for one normal entry: the
`file` field is always set; an entry of size 0 is not pushed; otherwise the
entry is split at its first space into id token and title (substituting a
non-empty text-reference value for the title), and an entry with no space
contributes only `type` and `id` (no `title` field is written). -/
def normalEntryToXRef (textRefs : String → String) (e : XRefIndexEntry) :
    Option Json :=
  if e.entry = "" then none
  else
    some (Json.obj (("file", Json.str e.file) ::
      match splitOnFirst ' ' e.entry.data with
      | some (idTok, titleChars) =>
        let tyId := writeEntryId idTok
        let title : String := ⟨titleChars⟩
        let textrefTitle := textRefs title
        let title := if textrefTitle.length > 0 then textrefTitle else title
        [("type", Json.str tyId.1), ("id", Json.str tyId.2),
         ("title", Json.str title)]
      | none =>
        let tyId := writeEntryId e.entry.data
        [("type", Json.str tyId.1), ("id", Json.str tyId.2)]))

/-- `indexEntriesToXRefs(entries)`: resolve the text references and emit one
JSON record per non-empty normal entry, in order. -/
def indexEntriesToXRefs (entries : List XRefIndexEntry) : List Json :=
  let parts := partitionTextRefs entries
  parts.2.filterMap (normalEntryToXRef parts.1)

/-! ## Query assembly -/

/-- Loop body of `indexEntriesForProject` for one enumerated source file:
prefer the unsaved overlay's index, else the persisted index file if it
exists, else nothing, and append the (file, entry) pairs. -/
def projectStep (unsaved : String → Option XRefFileIndex)
    (store : String → Option (List String))
    (indexEntries : List XRefIndexEntry) (sourceFile : String) :
    List XRefIndexEntry :=
  let entries : List String :=
    match unsaved sourceFile with
    | some idx => idx.entries
    | none =>
      match store sourceFile with
      | some onDisk => onDisk
      | none => []
  indexEntries ++ entries.map (fun entry => ⟨sourceFile, entry⟩)

/-- `indexEntriesForProject()`: walk the enumerated source files in order,
accumulating each file's (file, entry) pairs.  The enumeration
(`bookdownSourceFiles`), the overlay map and the persisted store are
explicit parameters. -/
def indexEntriesForProject (sourceFiles : List String)
    (unsaved : String → Option XRefFileIndex)
    (store : String → Option (List String)) : List XRefIndexEntry :=
  sourceFiles.foldl (projectStep unsaved store) []

/-- The project-scope query as the spec describes it, document by document:
the Overlay's entries if the Overlay holds the path, otherwise the persisted
Index Store's entries, otherwise the empty list. -/
def specProjectEntries (sourceFiles : List String)
    (unsaved : String → Option XRefFileIndex)
    (store : String → Option (List String)) : List XRefIndexEntry :=
  (sourceFiles.map (fun sourceFile =>
    (match unsaved sourceFile with
     | some idx => idx.entries
     | none =>
       match store sourceFile with
       | some onDisk => onDisk
       | none => []).map (fun entry => (⟨sourceFile, entry⟩ : XRefIndexEntry)))).flatten

/-- `indexEntriesForFile(fileIndex)`: pair every entry with the index's
file. -/
def indexEntriesForFile (fileIndex : XRefFileIndex) : List XRefIndexEntry :=
  fileIndex.entries.map (fun entry => ⟨fileIndex.file, entry⟩)

/-! ## Unsaved overlay (`XRefUnsavedIndex`)

The overlay is a `std::map<std::string, XRefFileIndex>` keyed by
book-relative path, queried only through `find`; we model it extensionally
as `String → Option XRefFileIndex`.  Path normalization
(`bookRelativePath`) happens before these operations and is out of scope:
the operations take the relative path directly. -/

/-- `removeUnsaved`: erase the overlay entry for `path`. -/
def removeUnsaved (m : String → Option XRefFileIndex) (path : String) :
    String → Option XRefFileIndex :=
  fun k => if k = path then none else m k

/-- `updateUnsaved`: always remove first; if the document is dirty, re-index
its contents through the adapter and store the fresh index. -/
def updateUnsaved (pandoc : String → Option ProcessResult)
    (m : String → Option XRefFileIndex) (path contents : String)
    (dirty : Bool) : String → Option XRefFileIndex :=
  let m' := removeUnsaved m path
  if dirty then
    fun k => if k = path then some (indexForDoc pandoc path contents) else m' k
  else m'

/-- `removeAllUnsaved`: drop every overlay entry. -/
def removeAllUnsaved : String → Option XRefFileIndex := fun _ => none

/-! ## File-change dispatch (`fileChangeHandler`)

The handler's observable effect is one of: doing nothing, rewriting the
persisted index for the document, or deleting it.  Filesystem facts (does
the index file exist, the two last-write times, does the source file exist)
are explicit parameters. -/

/-- The three coalesced event kinds delivered by the change monitor. -/
inductive FileEvent where
  | added
  | modified
  | removed
  deriving DecidableEq

/-- The handler's effect on the persisted store. -/
inductive FcAction where
  | noAction
  | reindex
  | deleteIndex
  deriving DecidableEq

/-- `fileChangeHandler(event)`: on add, skip when a persisted index exists
that is strictly newer than the source document; on add/modify, re-index
only when the source file exists; on remove, delete the index file. -/
def fileChangeHandler (event : FileEvent) (idxExists : Bool)
    (idxTime rmdTime : Nat) (rmdExists : Bool) : FcAction :=
  if event = FileEvent.added ∧ idxExists = true ∧ idxTime > rmdTime then
    FcAction.noAction
  else if event = FileEvent.added ∨ event = FileEvent.modified then
    if rmdExists then FcAction.reindex else FcAction.noAction
  else if event = FileEvent.removed then
    FcAction.deleteIndex
  else
    FcAction.noAction

/-! ## Persisted index file format

`writeStringVectorToFile` / `readStringVectorFromFile` live in
`core/FileSerializer` which is not part of the source sample; only their
call sites are.  They are modelled from the spec. -/

/-- Modelled from the spec: character data written by
`writeStringVectorToFile` (core/FileSerializer, which is not in the source
sample).  §6: the persisted layout "is plain newline-delimited Raw Index
Entry text" — each entry is written as one newline-terminated line. -/
def writeData (entries : List String) : List Char :=
  entries.foldr (fun e acc => e.data ++ '\n' :: acc) []

/-- Modelled from the spec: `writeStringVectorToFile` (core/FileSerializer,
not in the source sample) persists the entries as newline-terminated
lines. -/
def writeStringVectorToFile (entries : List String) : String :=
  ⟨writeData entries⟩

/-- Helper for `readStringVectorFromFile`: line reading in the style of
`std::getline` — `cur` is the (reversed) line being accumulated; a final
line at end of input is emitted, and input ending exactly at a newline
yields no further line. -/
def readLinesAux (cur : List Char) : List Char → List (List Char)
  | [] => [cur.reverse]
  | c :: rest =>
    if c = '\n' then
      cur.reverse :: (if rest.isEmpty then [] else readLinesAux [] rest)
    else readLinesAux (c :: cur) rest

/-- Modelled from the spec: `readStringVectorFromFile` (core/FileSerializer,
not in the source sample).  Reads the newline-delimited lines back; empty
content yields the empty list. -/
def readStringVectorFromFile (content : String) : List String :=
  if content.data.isEmpty then []
  else (readLinesAux [] content.data).map (fun l => ⟨l⟩)

/-! ## The RPC handler (`xrefIndexForFile`)

Environment oracles: `ctx` is `isBookdownContext()`, `within file` is
`filePath.isWithin(buildTargetPath)` of the resolved path, `getId` is
`source_database::getId` (`none` models the empty id), `getDoc` is
`source_database::get` (contents of the open document, or an error).
`params = none` models a `readParams` failure, which is the only error the
handler returns. -/

/-- `xrefIndexForFile(request)`: project-scope query when in a bookdown
context and the file is inside the build target, otherwise a single-document
query against the open document's live contents; unresolvable documents and
source-database read failures answer with an empty JSON array. -/
def xrefIndexForFile (pandoc : String → Option ProcessResult) (ctx : Bool)
    (within : String → Bool) (sourceFiles : List String)
    (unsaved : String → Option XRefFileIndex)
    (store : String → Option (List String))
    (getId : String → Option String) (getDoc : String → Except Unit String)
    (params : Option String) : Except Unit Json :=
  match params with
  | none => Except.error ()
  | some file =>
    if ctx && within file then
      Except.ok (Json.arr (indexEntriesToXRefs
        (indexEntriesForProject sourceFiles unsaved store)))
    else
      match getId file with
      | some id =>
        match getDoc id with
        | Except.error _ => Except.ok (Json.arr [])
        | Except.ok contents =>
          Except.ok (Json.arr (indexEntriesToXRefs (indexEntriesForFile
            (indexForDoc pandoc (getFilename file) contents))))
      | none => Except.ok (Json.arr [])

end BookdownXRefs
namespace BookdownXRefs

/-! ## Helper lemmas -/

theorem string_ne_empty_iff_data (s : String) : s ≠ "" ↔ s.data ≠ [] := by
  rw [ne_eq, String.ext_iff]

theorem string_length_pos_iff (s : String) : 0 < s.length ↔ s ≠ "" := by
  rw [string_ne_empty_iff_data]
  exact List.length_pos

theorem splitOnFirst_append (c : Char) (pre post : List Char)
    (h : c ∉ pre) : splitOnFirst c (pre ++ c :: post) = some (pre, post) := by
  induction pre with
  | nil => simp [splitOnFirst]
  | cons x xs ih =>
    have hx : x ≠ c := fun hxc => h (hxc ▸ List.mem_cons_self x xs)
    have hxs : c ∉ xs := fun hm => h (List.mem_cons_of_mem x hm)
    simp [splitOnFirst, hx, ih hxs]

theorem splitOnFirst_of_not_mem (c : Char) (s : List Char) (h : c ∉ s) :
    splitOnFirst c s = none := by
  induction s with
  | nil => rfl
  | cons x xs ih =>
    have hx : x ≠ c := fun hxc => h (hxc ▸ List.mem_cons_self x xs)
    have hxs : c ∉ xs := fun hm => h (List.mem_cons_of_mem x hm)
    simp [splitOnFirst, hx, ih hxs]

theorem splitOnChar_ne_nil (c : Char) (s : List Char) :
    splitOnChar c s ≠ [] := by
  cases s with
  | nil => simp [splitOnChar]
  | cons x xs =>
    simp only [splitOnChar]
    cases h : splitOnChar c xs with
    | nil => simp
    | cons hd tl =>
      by_cases hx : x = c <;> simp [hx]

theorem not_mem_of_mem_splitOnChar (c : Char) (s p : List Char)
    (hp : p ∈ splitOnChar c s) : c ∉ p := by
  induction s generalizing p with
  | nil =>
    simp only [splitOnChar, List.mem_singleton] at hp
    subst hp; simp
  | cons x xs ih =>
    cases h : splitOnChar c xs with
    | nil => exact absurd h (splitOnChar_ne_nil c xs)
    | cons hd tl =>
      simp only [splitOnChar, h] at hp
      by_cases hx : x = c
      · rw [if_pos hx] at hp
        rcases List.mem_cons.mp hp with rfl | hp2
        · simp
        · exact ih p (by rw [h]; exact hp2)
      · rw [if_neg hx] at hp
        rcases List.mem_cons.mp hp with rfl | hp2
        · intro hmem
          rcases List.mem_cons.mp hmem with heq | hmem2
          · exact hx heq.symm
          · exact ih hd (by rw [h]; exact List.mem_cons_self hd tl) hmem2
        · exact ih p (by rw [h]; exact List.mem_cons_of_mem hd hp2)

theorem mem_splitAllOn_no_sep (c : Char) (s : String) (e : String)
    (he : e ∈ splitAllOn c s) : c ∉ e.data := by
  simp only [splitAllOn, List.mem_map] at he
  obtain ⟨p, hp, rfl⟩ := he
  exact not_mem_of_mem_splitOnChar c s.data p hp

theorem indexForDoc_file (pandoc : String → Option ProcessResult)
    (file contents : String) : (indexForDoc pandoc file contents).file = file := by
  unfold indexForDoc
  cases pandoc contents with
  | none => rfl
  | some r => by_cases h : r.exitStatus ≠ 0 <;> simp [h]

theorem indexForDoc_entries_no_newline
    (pandoc : String → Option ProcessResult) (file contents : String)
    (e : String) (he : e ∈ (indexForDoc pandoc file contents).entries) :
    '\n' ∉ e.data := by
  unfold indexForDoc at he
  cases hp : pandoc contents with
  | none => rw [hp] at he; simp at he
  | some r =>
    rw [hp] at he
    by_cases h : r.exitStatus ≠ 0
    · simp [h] at he
    · simp only [h, if_false] at he
      exact mem_splitAllOn_no_sep '\n' r.stdOut e he

theorem partitionTextRefsAux_normals (entries : List XRefIndexEntry) :
    ∀ (tr : String → String) (ns : List XRefIndexEntry),
    (partitionTextRefsAux tr ns entries).2 =
      ns ++ entries.filter (fun e => (textRefMatch e.entry.data).isNone) := by
  induction entries with
  | nil => intro tr ns; simp [partitionTextRefsAux]
  | cons e rest ih =>
    intro tr ns
    rcases h : textRefMatch e.entry.data with _ | ⟨k, v⟩
    · simp only [partitionTextRefsAux, h, ih, List.filter_cons,
        Option.isNone_none, if_pos, List.append_assoc, List.singleton_append]
    · simp only [partitionTextRefsAux, h, ih, List.filter_cons,
        Option.isNone_some, Bool.false_eq_true, if_neg]
      simp

theorem partitionTextRefs_normals (entries : List XRefIndexEntry) :
    (partitionTextRefs entries).2 =
      entries.filter (fun e => (textRefMatch e.entry.data).isNone) := by
  simpa using partitionTextRefsAux_normals entries (fun _ => "") []

theorem partitionTextRefsAux_map (entries : List XRefIndexEntry) :
    ∀ (tr : String → String) (ns : List XRefIndexEntry) (k : String),
    (partitionTextRefsAux tr ns entries).1 k = tr k ∨
      ∃ e ∈ entries,
        textRefMatch e.entry.data =
          some (k, (partitionTextRefsAux tr ns entries).1 k) := by
  induction entries with
  | nil => intro tr ns k; left; rfl
  | cons e rest ih =>
    intro tr ns k
    rcases h : textRefMatch e.entry.data with _ | ⟨k', v⟩
    · simp only [partitionTextRefsAux, h]
      rcases ih tr (ns ++ [e]) k with h1 | ⟨e', he', hm⟩
      · exact Or.inl h1
      · exact Or.inr ⟨e', List.mem_cons_of_mem e he', hm⟩
    · simp only [partitionTextRefsAux, h]
      rcases ih (fun key => if key = k' then v else tr key) ns k with h1 | ⟨e', he', hm⟩
      · by_cases hk : k = k'
        · subst hk
          rw [if_pos rfl] at h1
          exact Or.inr ⟨e, List.mem_cons_self e rest, by rw [h1]; exact h⟩
        · rw [if_neg hk] at h1
          exact Or.inl h1
      · exact Or.inr ⟨e', List.mem_cons_of_mem e he', hm⟩

theorem partitionTextRefs_map_sound (entries : List XRefIndexEntry)
    (k : String) (hk : (partitionTextRefs entries).1 k ≠ "") :
    ∃ e ∈ entries,
      textRefMatch e.entry.data = some (k, (partitionTextRefs entries).1 k) := by
  rcases partitionTextRefsAux_map entries (fun _ => "") [] k with h1 | h2
  · exact absurd h1 hk
  · exact h2

theorem foldl_projectStep (unsaved : String → Option XRefFileIndex)
    (store : String → Option (List String)) (sourceFiles : List String) :
    ∀ acc : List XRefIndexEntry,
    sourceFiles.foldl (projectStep unsaved store) acc =
      acc ++ specProjectEntries sourceFiles unsaved store := by
  induction sourceFiles with
  | nil => intro acc; simp [specProjectEntries]
  | cons s rest ih =>
    intro acc
    rw [List.foldl_cons, ih]
    simp only [specProjectEntries, List.map_cons, List.flatten_cons, projectStep]
    rw [List.append_assoc]

theorem data_append_space (a b : String) :
    (a ++ " " ++ b).data = a.data ++ ' ' :: b.data := by
  rw [String.data_append, String.data_append, List.append_assoc]
  rfl

theorem append_space_ne_empty (a b : String) : a ++ " " ++ b ≠ "" := by
  rw [string_ne_empty_iff_data, data_append_space]
  simp

/-- Unfolding of `normalEntryToXRef` for an entry with a space: the entry is
split at its first space, the id token at its first colon, and the title
is substituted exactly when the text-reference map holds a non-empty value
for it. -/
theorem normalEntryToXRef_space (tr : String → String) (f idTok title : String)
    (hsp : ' ' ∉ idTok.data) :
    normalEntryToXRef tr ⟨f, idTok ++ " " ++ title⟩ =
      some (Json.obj
        [("file", Json.str f),
         ("type", Json.str (writeEntryId idTok.data).1),
         ("id", Json.str (writeEntryId idTok.data).2),
         ("title", Json.str (if tr title ≠ "" then tr title else title))]) := by
  unfold normalEntryToXRef
  rw [if_neg (append_space_ne_empty idTok title)]
  simp only [data_append_space, splitOnFirst_append ' ' idTok.data title.data hsp]
  have he : (⟨title.data⟩ : String) = title := rfl
  rw [he]
  by_cases h : tr title = ""
  · rw [if_neg (by simp [h, String.length]), if_neg (by simp [h])]
  · rw [if_pos (by exact (string_length_pos_iff (tr title)).mpr h), if_pos h]

/-- Unfolding of `normalEntryToXRef` for a non-empty entry without a space:
the whole entry is the id token and no `title` field is written at all. -/
theorem normalEntryToXRef_no_space (tr : String → String) (f : String)
    (e : String) (hsp : ' ' ∉ e.data) (hne : e ≠ "") :
    normalEntryToXRef tr ⟨f, e⟩ =
      some (Json.obj
        [("file", Json.str f),
         ("type", Json.str (writeEntryId e.data).1),
         ("id", Json.str (writeEntryId e.data).2)]) := by
  unfold normalEntryToXRef
  rw [if_neg hne]
  simp only [splitOnFirst_of_not_mem ' ' e.data hsp]

theorem writeEntryId_colon (ty idPart : String) (h : ':' ∉ ty.data) :
    writeEntryId (ty.data ++ ':' :: idPart.data) = (ty, idPart) := by
  unfold writeEntryId
  rw [splitOnFirst_append ':' ty.data idPart.data h]

theorem writeEntryId_no_colon (s : String) (h : ':' ∉ s.data) :
    writeEntryId s.data = ("", s) := by
  unfold writeEntryId
  rw [splitOnFirst_of_not_mem ':' s.data h]

theorem normalEntryToXRef_none_iff (tr : String → String)
    (e : XRefIndexEntry) : normalEntryToXRef tr e = none ↔ e.entry = "" := by
  unfold normalEntryToXRef
  by_cases h : e.entry = "" <;> simp [h]

theorem normalEntryToXRef_file (tr : String → String) (e : XRefIndexEntry)
    (j : Json) (hj : normalEntryToXRef tr e = some j) :
    strField j "file" = some e.file := by
  unfold normalEntryToXRef at hj
  by_cases h : e.entry = ""
  · rw [if_pos h] at hj; exact absurd hj (by simp)
  · rw [if_neg h] at hj
    rw [Option.some.injEq] at hj
    subst hj
    simp [strField, List.lookup]

theorem mem_indexEntriesToXRefs (entries : List XRefIndexEntry) (j : Json)
    (hj : j ∈ indexEntriesToXRefs entries) :
    ∃ e ∈ entries,
      normalEntryToXRef (partitionTextRefs entries).1 e = some j := by
  unfold indexEntriesToXRefs at hj
  rcases List.mem_filterMap.mp hj with ⟨e, he, hs⟩
  refine ⟨e, ?_, hs⟩
  rw [partitionTextRefs_normals] at he
  exact List.mem_of_mem_filter he

theorem readLinesAux_line (e : List Char) :
    ∀ (cur rest : List Char), '\n' ∉ e →
    readLinesAux cur (e ++ '\n' :: rest) =
      (cur.reverse ++ e) ::
        (if rest.isEmpty then [] else readLinesAux [] rest) := by
  induction e with
  | nil => intro cur rest h; simp [readLinesAux]
  | cons c e' ih =>
    intro cur rest h
    have hc : c ≠ '\n' := fun hh => h (hh ▸ List.mem_cons_self c e')
    have h' : '\n' ∉ e' := fun hm => h (List.mem_cons_of_mem c hm)
    simp only [List.cons_append, readLinesAux, if_neg hc, List.append_eq]
    rw [ih (c :: cur) rest h']
    simp [List.append_assoc]

theorem writeData_cons (e : String) (l : List String) :
    writeData (e :: l) = e.data ++ '\n' :: writeData l := rfl

theorem writeData_isEmpty_false (e : String) (l : List String) :
    (writeData (e :: l)).isEmpty = false := by
  rw [writeData_cons]
  cases e.data <;> rfl

theorem write_read_roundtrip (l : List String)
    (h : ∀ e ∈ l, '\n' ∉ e.data) :
    readStringVectorFromFile (writeStringVectorToFile l) = l := by
  induction l with
  | nil => rfl
  | cons e l' ih =>
    have he : '\n' ∉ e.data := h e (List.mem_cons_self e l')
    have hl' : ∀ x ∈ l', '\n' ∉ x.data :=
      fun x hx => h x (List.mem_cons_of_mem e hx)
    have hdata : (writeStringVectorToFile (e :: l')).data = writeData (e :: l') := rfl
    unfold readStringVectorFromFile
    rw [hdata, writeData_isEmpty_false]
    simp only [Bool.false_eq_true, if_false]
    rw [writeData_cons, readLinesAux_line e.data [] (writeData l') he]
    simp only [List.nil_append, List.reverse_nil]
    cases hl : l' with
    | nil => simp [writeData]
    | cons x l'' =>
      rw [writeData_isEmpty_false]
      simp only [Bool.false_eq_true, if_false, List.map_cons]
      have ihx : readStringVectorFromFile (writeStringVectorToFile (x :: l'')) =
          x :: l'' := by
        rw [← hl]; exact ih hl'
      have hread : readStringVectorFromFile (writeStringVectorToFile (x :: l'')) =
          (readLinesAux [] (writeData (x :: l''))).map (fun c => (⟨c⟩ : String)) := by
        unfold readStringVectorFromFile
        rw [show (writeStringVectorToFile (x :: l'')).data = writeData (x :: l'') from rfl,
          writeData_isEmpty_false]
        simp
      rw [← hread, ihx]

theorem mem_indexEntriesForFile_file (idx : XRefFileIndex)
    (e : XRefIndexEntry) (he : e ∈ indexEntriesForFile idx) :
    e.file = idx.file := by
  unfold indexEntriesForFile at he
  rcases List.mem_map.mp he with ⟨en, _, rfl⟩
  rfl

/-! ## Claims -/

/-- C1: For every project-scope query and every enumerated source document,
the query's (path, raw entry) pairs for that document are exactly the
Overlay's entries when the Overlay holds the document's path, and otherwise
exactly the persisted Index Store's entries (or nothing when no index file
exists).  `specProjectEntries` is the claim-side description, in which the
store is never consulted for an overlay-held path, so Overlay precedence is
absolute. -/
theorem C1_project_query_overlay_precedence (sourceFiles : List String)
    (unsaved : String → Option XRefFileIndex)
    (store : String → Option (List String)) :
    indexEntriesForProject sourceFiles unsaved store =
      specProjectEntries sourceFiles unsaved store := by
  unfold indexEntriesForProject
  simpa using foldl_projectStep unsaved store sourceFiles []

/-- C2 counterexample: a Modify event for a document whose source file no
longer exists does not re-index — the handler does nothing — contradicting
the claim that a Modify always rewrites the persisted File Index. -/
theorem C2_counterexample :
    fileChangeHandler FileEvent.modified true 5 3 false = FcAction.noAction ∧
      FcAction.noAction ≠ FcAction.reindex := by
  constructor <;> decide

/-- C2 (amended): on Add with an existing strictly-newer persisted index the
handler returns without re-indexing; on Modify it re-indexes whenever the
source document exists, with no timestamp comparison; on Modify of a
missing source document it does nothing; on Remove it deletes the persisted
index file. -/
theorem C2_fileChangeHandler_spec (idxExists : Bool) (idxTime rmdTime : Nat)
    (rmdExists : Bool) :
    (idxExists = true → idxTime > rmdTime →
      fileChangeHandler FileEvent.added idxExists idxTime rmdTime rmdExists =
        FcAction.noAction) ∧
    (rmdExists = true →
      fileChangeHandler FileEvent.modified idxExists idxTime rmdTime rmdExists =
        FcAction.reindex) ∧
    (rmdExists = false →
      fileChangeHandler FileEvent.modified idxExists idxTime rmdTime rmdExists =
        FcAction.noAction) ∧
    fileChangeHandler FileEvent.removed idxExists idxTime rmdTime rmdExists =
      FcAction.deleteIndex := by
  refine ⟨?_, ?_, ?_, ?_⟩
  · intro h1 h2; simp [fileChangeHandler, h1, h2]
  · intro h; simp [fileChangeHandler, h]
  · intro h; simp [fileChangeHandler, h]
  · simp [fileChangeHandler]

/-- C2 witness: with an index file newer (5) than the source (3), an Add
skips and a Modify still re-indexes. -/
theorem C2_fileChangeHandler_spec_w :
    fileChangeHandler FileEvent.added true 5 3 true = FcAction.noAction ∧
    fileChangeHandler FileEvent.modified true 5 3 true = FcAction.reindex :=
  ⟨(C2_fileChangeHandler_spec true 5 3 true).1 rfl (by decide),
   (C2_fileChangeHandler_spec true 5 3 true).2.1 rfl⟩

/-- C3 counterexample: `"(fig1) "` is an indirect entry whose key
`"(fig1)"` is collected with the empty value; the normal entry
`"fig:a (fig1)"` has title exactly equal to that key, yet its title is not
replaced by the key's value — the emitted title stays `"(fig1)"` instead of
becoming `""`. -/
theorem C3_counterexample :
    textRefMatch "(fig1) ".data = some ("(fig1)", "") ∧
    (indexEntriesToXRefs [⟨"f", "(fig1) "⟩, ⟨"f", "fig:a (fig1)"⟩]).map
        (fun j => strField j "title") = [some "(fig1)"] ∧
    ("(fig1)" : String) ≠ "" := by
  refine ⟨by decide, by decide, by decide⟩

/-- C3 (amended): indirect entries are collected into the key-to-title map
and never appear among the normal entries (hence never yield Records); any
non-empty value in the collected map stems from an indirect entry with that
key; and a normal entry's title is replaced exactly when the collected map
holds a non-empty value for it — an empty collected value, like a title
that differs from the key token, yields no substitution. -/
theorem C3_textref_resolution (entries : List XRefIndexEntry)
    (tr : String → String) (f idTok title k : String) :
    ((partitionTextRefs entries).2 =
      entries.filter (fun e => (textRefMatch e.entry.data).isNone)) ∧
    ((partitionTextRefs entries).1 k ≠ "" →
      ∃ e ∈ entries,
        textRefMatch e.entry.data =
          some (k, (partitionTextRefs entries).1 k)) ∧
    (' ' ∉ idTok.data → tr title ≠ "" →
      normalEntryToXRef tr ⟨f, idTok ++ " " ++ title⟩ =
        some (Json.obj
          [("file", Json.str f),
           ("type", Json.str (writeEntryId idTok.data).1),
           ("id", Json.str (writeEntryId idTok.data).2),
           ("title", Json.str (tr title))])) ∧
    (' ' ∉ idTok.data → tr title = "" →
      normalEntryToXRef tr ⟨f, idTok ++ " " ++ title⟩ =
        some (Json.obj
          [("file", Json.str f),
           ("type", Json.str (writeEntryId idTok.data).1),
           ("id", Json.str (writeEntryId idTok.data).2),
           ("title", Json.str title)])) := by
  refine ⟨partitionTextRefs_normals entries,
    partitionTextRefs_map_sound entries k, ?_, ?_⟩
  · intro hsp hne
    rw [normalEntryToXRef_space tr f idTok title hsp, if_pos hne]
  · intro hsp heq
    rw [normalEntryToXRef_space tr f idTok title hsp]
    simp [heq]

/-- C3 witness: with entries `["(fig1) Figure One", "fig:plot (fig1)"]` the
key `"(fig1)"` is collected from the indirect entry and the normal entry's
title (exactly that key) is substituted with the collected value. -/
theorem C3_textref_resolution_w :
    (∃ e ∈ ([⟨"f", "(fig1) Figure One"⟩, ⟨"f", "fig:plot (fig1)"⟩] :
        List XRefIndexEntry),
      textRefMatch e.entry.data =
        some ("(fig1)",
          (partitionTextRefs
            [⟨"f", "(fig1) Figure One"⟩, ⟨"f", "fig:plot (fig1)"⟩]).1
              "(fig1)")) ∧
    normalEntryToXRef
        (partitionTextRefs
          [⟨"f", "(fig1) Figure One"⟩, ⟨"f", "fig:plot (fig1)"⟩]).1
        ⟨"f", "fig:plot" ++ " " ++ "(fig1)"⟩ =
      some (Json.obj
        [("file", Json.str "f"),
         ("type", Json.str (writeEntryId "fig:plot".data).1),
         ("id", Json.str (writeEntryId "fig:plot".data).2),
         ("title", Json.str
           ((partitionTextRefs
             [⟨"f", "(fig1) Figure One"⟩, ⟨"f", "fig:plot (fig1)"⟩]).1
               "(fig1)"))]) :=
  ⟨(C3_textref_resolution
      [⟨"f", "(fig1) Figure One"⟩, ⟨"f", "fig:plot (fig1)"⟩]
      (fun _ => "") "" "" "" "(fig1)").2.1 (by decide),
   (C3_textref_resolution
      [⟨"f", "(fig1) Figure One"⟩, ⟨"f", "fig:plot (fig1)"⟩]
      (partitionTextRefs
        [⟨"f", "(fig1) Figure One"⟩, ⟨"f", "fig:plot (fig1)"⟩]).1
      "f" "fig:plot" "(fig1)" "(fig1)").2.2.1 (by decide) (by decide)⟩

/-- C4 counterexample: for the no-space entry `"fig:a"` the emitted record
carries no title field at all (`strField` on `"title"` is `none`), rather
than an empty title. -/
theorem C4_counterexample :
    (indexEntriesToXRefs [⟨"f", "fig:a"⟩]).map
        (fun j => strField j "title") = [none] ∧
    (indexEntriesToXRefs [⟨"f", "fig:a"⟩]).map
        (fun j => strField j "type") = [some "fig"] ∧
    (indexEntriesToXRefs [⟨"f", "fig:a"⟩]).map
        (fun j => strField j "id") = [some "a"] ∧
    (none : Option String) ≠ some "" := by
  refine ⟨by decide, by decide, by decide, by decide⟩

/-- C4 (amended): a normal entry is split at its first space into id-token
and title, and the id-token at its first colon into type and id (no colon ⇒
empty type and the id is the whole token); when the entry has no space, the
whole entry is the id-token and the Record is emitted without a title
field. -/
theorem C4_entry_split (tr : String → String)
    (f e idTok title ty idPart s : String) :
    (' ' ∉ idTok.data → tr title = "" →
      normalEntryToXRef tr ⟨f, idTok ++ " " ++ title⟩ =
        some (Json.obj
          [("file", Json.str f),
           ("type", Json.str (writeEntryId idTok.data).1),
           ("id", Json.str (writeEntryId idTok.data).2),
           ("title", Json.str title)])) ∧
    (' ' ∉ e.data → e ≠ "" →
      normalEntryToXRef tr ⟨f, e⟩ =
        some (Json.obj
          [("file", Json.str f),
           ("type", Json.str (writeEntryId e.data).1),
           ("id", Json.str (writeEntryId e.data).2)])) ∧
    (':' ∉ ty.data → writeEntryId (ty.data ++ ':' :: idPart.data) =
      (ty, idPart)) ∧
    (':' ∉ s.data → writeEntryId s.data = ("", s)) := by
  refine ⟨?_, ?_, writeEntryId_colon ty idPart, writeEntryId_no_colon s⟩
  · intro hsp heq
    rw [normalEntryToXRef_space tr f idTok title hsp]
    simp [heq]
  · intro hsp hne
    exact normalEntryToXRef_no_space tr f e hsp hne

/-- C4 witness: the with-space, no-space, colon and no-colon cases at
concrete entries. -/
theorem C4_entry_split_w :
    (normalEntryToXRef (fun _ => "") ⟨"f", "fig:plot" ++ " " ++ "My Plot"⟩ =
      some (Json.obj
        [("file", Json.str "f"),
         ("type", Json.str (writeEntryId "fig:plot".data).1),
         ("id", Json.str (writeEntryId "fig:plot".data).2),
         ("title", Json.str "My Plot")])) ∧
    (normalEntryToXRef (fun _ => "") ⟨"f", "fig:a"⟩ =
      some (Json.obj
        [("file", Json.str "f"),
         ("type", Json.str (writeEntryId "fig:a".data).1),
         ("id", Json.str (writeEntryId "fig:a".data).2)])) ∧
    writeEntryId ("fig".data ++ ':' :: "a".data) = ("fig", "a") ∧
    writeEntryId "intro".data = ("", "intro") :=
  ⟨(C4_entry_split (fun _ => "") "f" "fig:a" "fig:plot" "My Plot" "fig" "a"
      "intro").1 (by decide) rfl,
   (C4_entry_split (fun _ => "") "f" "fig:a" "fig:plot" "My Plot" "fig" "a"
      "intro").2.1 (by decide) (by decide),
   (C4_entry_split (fun _ => "") "f" "fig:a" "fig:plot" "My Plot" "fig" "a"
      "intro").2.2.1 (by decide),
   (C4_entry_split (fun _ => "") "f" "fig:a" "fig:plot" "My Plot" "fig" "a"
      "intro").2.2.2 (by decide)⟩

/-- C5: when the renderer invocation fails or exits non-zero, the adapter
returns a File Index with an empty entries list for the document (the
return type carries no error — the failure is only logged). -/
theorem C5_indexForDoc_failure_empty (pandoc : String → Option ProcessResult)
    (file contents : String)
    (h : pandoc contents = none ∨
      ∃ r, pandoc contents = some r ∧ r.exitStatus ≠ 0) :
    indexForDoc pandoc file contents = ⟨file, []⟩ := by
  unfold indexForDoc
  rcases h with h | ⟨r, hr, hst⟩
  · rw [h]
  · rw [hr]; simp [hst]

/-- C5 witness: a renderer exiting with status 1 yields the empty index. -/
theorem C5_indexForDoc_failure_empty_w :
    indexForDoc (fun _ => some ⟨1, "out", "err"⟩) "doc.Rmd" "contents" =
      ⟨"doc.Rmd", []⟩ :=
  C5_indexForDoc_failure_empty (fun _ => some ⟨1, "out", "err"⟩) "doc.Rmd"
    "contents" (Or.inr ⟨⟨1, "out", "err"⟩, rfl, by decide⟩)

/-- C6: a well-formed request whose path is neither a bookdown-project query
(bookdown context with the path inside the build target) nor resolvable to
an open document answers success with the empty JSON array; and every
successful response carries a JSON array. -/
theorem C6_xrefIndexForFile_spec (pandoc : String → Option ProcessResult)
    (ctx : Bool) (within : String → Bool) (sourceFiles : List String)
    (unsaved : String → Option XRefFileIndex)
    (store : String → Option (List String))
    (getId : String → Option String) (getDoc : String → Except Unit String)
    (file : String) (params : Option String) :
    ((ctx && within file) = false → getId file = none →
      xrefIndexForFile pandoc ctx within sourceFiles unsaved store getId
        getDoc (some file) = Except.ok (Json.arr [])) ∧
    (∀ j, xrefIndexForFile pandoc ctx within sourceFiles unsaved store getId
        getDoc params = Except.ok j → ∃ l, j = Json.arr l) := by
  constructor
  · intro h1 h2
    simp [xrefIndexForFile, h1, h2]
  · intro j hj
    cases params with
    | none => simp [xrefIndexForFile] at hj
    | some f =>
      simp only [xrefIndexForFile] at hj
      by_cases hc : (ctx && within f) = true
      · rw [if_pos hc] at hj
        injection hj with h
        exact ⟨_, h.symm⟩
      · rw [if_neg hc] at hj
        cases hgi : getId f with
        | none => rw [hgi] at hj; injection hj with h; exact ⟨[], h.symm⟩
        | some id =>
          simp only [hgi] at hj
          cases hgd : getDoc id with
          | error err =>
            simp only [hgd] at hj; injection hj with h; exact ⟨[], h.symm⟩
          | ok contents =>
            simp only [hgd] at hj; injection hj with h; exact ⟨_, h.symm⟩

/-- C6 witness: an unresolvable document (no bookdown context, no source
database id) answers success with the empty array. -/
theorem C6_xrefIndexForFile_spec_w :
    xrefIndexForFile (fun _ => none) false (fun _ => false) []
      (fun _ => none) (fun _ => none) (fun _ => none)
      (fun _ => Except.error ()) (some "notes.Rmd") =
      Except.ok (Json.arr []) :=
  (C6_xrefIndexForFile_spec (fun _ => none) false (fun _ => false) []
    (fun _ => none) (fun _ => none) (fun _ => none)
    (fun _ => Except.error ()) "notes.Rmd" (some "notes.Rmd")).1 rfl rfl

/-- C7 counterexample: the whitespace-only entry `" "` is not dropped — it
yields one record (with empty type, id and title) even though it is blank
after trimming. -/
theorem C7_counterexample :
    (indexEntriesToXRefs [⟨"f", " "⟩]).length = 1 ∧
    (indexEntriesToXRefs [⟨"f", " "⟩]).map
      (fun j => strField j "title") = [some ""] := by
  constructor <;> decide

/-- C7 (amended): a Record is emitted for a normal entry iff its raw text is
non-empty — only the exactly-empty entry is dropped, with no whitespace
trimming — and every non-empty normal entry of the partition contributes
its record to the output. -/
theorem C7_emitted_iff_nonempty (tr : String → String) (e : XRefIndexEntry)
    (entries : List XRefIndexEntry) :
    (normalEntryToXRef tr e = none ↔ e.entry = "") ∧
    (e ∈ (partitionTextRefs entries).2 → e.entry ≠ "" →
      ∃ j, normalEntryToXRef (partitionTextRefs entries).1 e = some j ∧
        j ∈ indexEntriesToXRefs entries) := by
  constructor
  · exact normalEntryToXRef_none_iff tr e
  · intro hmem hne
    rcases ho : normalEntryToXRef (partitionTextRefs entries).1 e with _ | j
    · exact absurd ((normalEntryToXRef_none_iff _ e).mp ho) hne
    · refine ⟨j, rfl, ?_⟩
      unfold indexEntriesToXRefs
      exact List.mem_filterMap.mpr ⟨e, hmem, ho⟩

/-- C7 witness: the non-empty entry `"fig:a One"` is emitted. -/
theorem C7_emitted_iff_nonempty_w :
    ∃ j, normalEntryToXRef (partitionTextRefs [⟨"f", "fig:a One"⟩]).1
        ⟨"f", "fig:a One"⟩ = some j ∧
      j ∈ indexEntriesToXRefs [⟨"f", "fig:a One"⟩] :=
  (C7_emitted_iff_nonempty (fun _ => "") ⟨"f", "fig:a One"⟩
    [⟨"f", "fig:a One"⟩]).2 (by decide) (by decide)

/-- C8: writing a File Index's entries to the persisted index file and
reading them back yields the same ordered entry list (serializer modelled
from the spec), and every File Index the adapter produces satisfies the
newline-freedom this relies on. -/
theorem C8_roundtrip (idx : XRefFileIndex)
    (pandoc : String → Option ProcessResult) (file contents : String) :
    ((∀ e ∈ idx.entries, '\n' ∉ e.data) →
      readStringVectorFromFile (writeStringVectorToFile idx.entries) =
        idx.entries) ∧
    (∀ e ∈ (indexForDoc pandoc file contents).entries, '\n' ∉ e.data) := by
  exact ⟨write_read_roundtrip idx.entries,
    fun e he => indexForDoc_entries_no_newline pandoc file contents e he⟩

/-- C8 witness: a concrete three-entry index (including an empty entry)
round-trips byte for byte. -/
theorem C8_roundtrip_w :
    readStringVectorFromFile (writeStringVectorToFile
      (⟨"ch1.Rmd", ["fig:a One", "", "tab:b Two"]⟩ : XRefFileIndex).entries) =
      ["fig:a One", "", "tab:b Two"] :=
  (C8_roundtrip ⟨"ch1.Rmd", ["fig:a One", "", "tab:b Two"]⟩ (fun _ => none)
    "" "").1 (by decide)

/-- C9: `updateUnsaved` with `dirty = false` leaves the overlay exactly as
`removeUnsaved`; with `dirty = true` it stores the freshly computed index,
unconditionally replacing any prior entry; `removeUnsaved` of an absent
path is a no-op; and all other paths are untouched by either operation. -/
theorem C9_unsaved_overlay_spec (pandoc : String → Option ProcessResult)
    (m : String → Option XRefFileIndex) (path contents : String) :
    (updateUnsaved pandoc m path contents false = removeUnsaved m path) ∧
    (updateUnsaved pandoc m path contents true =
      fun k => if k = path then some (indexForDoc pandoc path contents)
               else m k) ∧
    (m path = none → removeUnsaved m path = m) ∧
    (∀ k, k ≠ path → removeUnsaved m path k = m k ∧
      ∀ d, updateUnsaved pandoc m path contents d k = m k) := by
  refine ⟨rfl, ?_, ?_, ?_⟩
  · funext k
    by_cases hk : k = path
    · simp [updateUnsaved, hk]
    · simp [updateUnsaved, removeUnsaved, hk]
  · intro h
    funext k
    by_cases hk : k = path
    · subst hk; simp [removeUnsaved, h.symm]
    · simp [removeUnsaved, hk]
  · intro k hk
    refine ⟨by simp [removeUnsaved, hk], ?_⟩
    intro d
    cases d <;> simp [updateUnsaved, removeUnsaved, hk]

/-- C9 witness: removing an absent path from the empty overlay is a no-op,
and a removal leaves other paths unchanged. -/
theorem C9_unsaved_overlay_spec_w :
    removeUnsaved (fun _ => none) "a.Rmd" = (fun _ => none) ∧
    removeUnsaved (fun _ => none) "a.Rmd" "b.Rmd" = none :=
  ⟨(C9_unsaved_overlay_spec (fun _ => none) (fun _ => none) "a.Rmd" "").2.2.1
      rfl,
   ((C9_unsaved_overlay_spec (fun _ => none) (fun _ => none) "a.Rmd" "").2.2.2
      "b.Rmd" (by decide)).1⟩

/-- C10: in single-document query mode (path not a bookdown-project query),
every returned record's file field equals the filename component (basename)
of the requested path. -/
theorem C10_single_doc_basename (pandoc : String → Option ProcessResult)
    (ctx : Bool) (within : String → Bool) (sourceFiles : List String)
    (unsaved : String → Option XRefFileIndex)
    (store : String → Option (List String))
    (getId : String → Option String) (getDoc : String → Except Unit String)
    (file id contents : String) (l : List Json) (j : Json)
    (h1 : (ctx && within file) = false) (h2 : getId file = some id)
    (h3 : getDoc id = Except.ok contents)
    (h4 : xrefIndexForFile pandoc ctx within sourceFiles unsaved store getId
      getDoc (some file) = Except.ok (Json.arr l))
    (hj : j ∈ l) : strField j "file" = some (getFilename file) := by
  simp only [xrefIndexForFile, h1, Bool.false_eq_true, if_false, h2, h3,
    Except.ok.injEq, Json.arr.injEq] at h4
  subst h4
  obtain ⟨e, he, hsome⟩ := mem_indexEntriesToXRefs _ j hj
  rw [normalEntryToXRef_file _ e j hsome,
    mem_indexEntriesForFile_file _ e he, indexForDoc_file]

/-- C10 witness: a document in a subdirectory queried in single-document
mode yields a record whose file field is the basename. -/
theorem C10_single_doc_basename_w :
    strField (Json.obj
      [("file", Json.str "doc.Rmd"), ("type", Json.str "fig"),
       ("id", Json.str "a"), ("title", Json.str "One")]) "file" =
      some (getFilename "dir/sub/doc.Rmd") :=
  C10_single_doc_basename (fun _ => some ⟨0, "fig:a One", ""⟩) false
    (fun _ => false) [] (fun _ => none) (fun _ => none)
    (fun _ => some "id1") (fun _ => Except.ok "body") "dir/sub/doc.Rmd"
    "id1" "body"
    [Json.obj [("file", Json.str "doc.Rmd"), ("type", Json.str "fig"),
      ("id", Json.str "a"), ("title", Json.str "One")]]
    (Json.obj [("file", Json.str "doc.Rmd"), ("type", Json.str "fig"),
      ("id", Json.str "a"), ("title", Json.str "One")])
    rfl rfl rfl rfl (List.mem_cons_self _ _)

end BookdownXRefs
